import Mathlib

/-!
Verification of the ciphercanvas confidential proposal-voting repository.

The development shallowly embeds two layers of the repository:

Layer one, the Arcis circuits of encrypted-ixs/src/lib.rs, modelled on the
plaintext values the MPC engine computes on after decryption.  The u64
counters are Nat values below 2 ^ 64 and the single arithmetic operation,
the vote increment, is taken modulo 2 ^ 64.

Layer two, the Solana program of programs/artmural/src/lib.rs, modelled as
state-transition functions over the accounts the program owns.  Pubkeys are
Nat, ciphertexts are opaque 32-byte lists, and the Anchor account
constraints (init, init_if_needed, PDA derivation) are explicit guards run
before the instruction body, in the order the runtime runs them.
-/

def U64_MOD : Nat := 2 ^ 64

/-- A 32-byte ciphertext blob, opaque to the program. -/
abbrev Ciphertext := List Nat

/-- The all-zero ciphertext slot, as written by the Rust expression
that fills a vote slot with 32 zero bytes. -/
def zeroCiphertext : Ciphertext := List.replicate 32 0

instance {ε α : Type} [DecidableEq ε] [DecidableEq α] : DecidableEq (Except ε α) :=
  fun a b =>
  match a, b with
  | .error e1, .error e2 =>
      if h : e1 = e2 then .isTrue (h ▸ rfl)
      else .isFalse (fun hc => h (by cases hc; rfl))
  | .error e1, .ok a2 => .isFalse (fun hc => Except.noConfusion hc)
  | .ok a1, .error e2 => .isFalse (fun hc => Except.noConfusion hc)
  | .ok a1, .ok a2 =>
      if h : a1 = a2 then .isTrue (h ▸ rfl)
      else .isFalse (fun hc => h (by cases hc; rfl))

namespace Circuits

/-- ProposalVotes of encrypted-ixs: ten u64 counters, one per proposal. -/
structure ProposalVotes where
  proposal_votes : List Nat
deriving DecidableEq

/-- UserVote of encrypted-ixs: the voted proposal id, a u8. -/
structure UserVote where
  proposal_id : Nat
deriving DecidableEq

/-- Circuit vote_for_proposal: increments the counter at the decrypted
proposal id when that id is below 10, otherwise leaves the tally as is.
The u64 increment is modelled modulo 2 ^ 64. -/
def vote_for_proposal (vote : UserVote) (pv : ProposalVotes) : ProposalVotes :=
  if vote.proposal_id < 10 then
    { proposal_votes :=
        pv.proposal_votes.set vote.proposal_id
          ((pv.proposal_votes.getD vote.proposal_id 0 + 1) % U64_MOD) }
  else pv

/-- The loop body of reveal_winning_proposal: the accumulator is the pair
(winning_proposal, max_votes) and an entry replaces it only on a strict
increase of the vote count. -/
def revealLoop : Nat → Nat × Nat → List Nat → Nat × Nat
  | _, acc, [] => acc
  | i, acc, v :: rest => revealLoop (i + 1) (if v > acc.2 then (i, v) else acc) rest

/-- Circuit reveal_winning_proposal: scans the ten counters with the loop
above, starting from max_votes = 0 and winning_proposal = 0, and reveals
the resulting pair. -/
def reveal_winning_proposal (pv : ProposalVotes) : Nat × Nat :=
  revealLoop 0 (0, 0) pv.proposal_votes

/-- Circuit decrypt_vote: reveals the decrypted proposal id. -/
def decrypt_vote (vote : UserVote) : Nat :=
  vote.proposal_id

/-- Circuit verify_winning_vote: reveals whether the decrypted proposal id
equals the given winning proposal id. -/
def verify_winning_vote (vote : UserVote) (winning_proposal_id : Nat) : Bool :=
  vote.proposal_id = winning_proposal_id

theorem revealLoop_spec (l : List Nat) :
    ∀ (n w0 m0 : Nat),
      m0 ≤ (revealLoop n (w0, m0) l).2 ∧
      (∀ x ∈ l, x ≤ (revealLoop n (w0, m0) l).2) ∧
      ((revealLoop n (w0, m0) l).1 = w0 ∧ (revealLoop n (w0, m0) l).2 = m0 ∨
        ∃ i, i < l.length ∧ (revealLoop n (w0, m0) l).1 = n + i ∧
          l.getD i 0 = (revealLoop n (w0, m0) l).2 ∧
          m0 < (revealLoop n (w0, m0) l).2 ∧
          ∀ j, j < i → l.getD j 0 < (revealLoop n (w0, m0) l).2) := by
  induction l with
  | nil =>
    intro n w0 m0
    exact ⟨Nat.le_refl _, by simp [revealLoop], Or.inl ⟨rfl, rfl⟩⟩
  | cons a t ih =>
    intro n w0 m0
    by_cases h : a > m0
    · have hrw : revealLoop n (w0, m0) (a :: t) = revealLoop (n + 1) (n, a) t := by
        simp [revealLoop, h]
      obtain ⟨h1, h2, h3⟩ := ih (n + 1) n a
      rw [hrw]
      refine ⟨Nat.le_trans (Nat.le_of_lt h) h1, ?_, ?_⟩
      · intro x hx
        rcases List.mem_cons.mp hx with hx | hx
        · exact hx ▸ h1
        · exact h2 x hx
      · rcases h3 with ⟨hw, hm⟩ | ⟨i, hi, hw, hg, hlt, hall⟩
        · refine Or.inr ⟨0, by simp, by simpa using hw, ?_, ?_, ?_⟩
          · simpa [List.getD] using hm.symm
          · omega
          · intro j hj; omega
        · refine Or.inr ⟨i + 1, by simpa using hi, by omega, ?_, by omega, ?_⟩
          · simpa [List.getD] using hg
          · intro j hj
            cases j with
            | zero => simpa [List.getD] using hlt
            | succ k => simpa [List.getD] using hall k (by omega)
    · have hrw : revealLoop n (w0, m0) (a :: t) = revealLoop (n + 1) (w0, m0) t := by
        simp [revealLoop, h]
      obtain ⟨h1, h2, h3⟩ := ih (n + 1) w0 m0
      rw [hrw]
      refine ⟨h1, ?_, ?_⟩
      · intro x hx
        rcases List.mem_cons.mp hx with hx | hx
        · exact hx ▸ Nat.le_trans (Nat.le_of_not_lt h) h1
        · exact h2 x hx
      · rcases h3 with ⟨hw, hm⟩ | ⟨i, hi, hw, hg, hlt, hall⟩
        · exact Or.inl ⟨hw, hm⟩
        · refine Or.inr ⟨i + 1, by simpa using hi, by omega, ?_, hlt, ?_⟩
          · simpa [List.getD] using hg
          · intro j hj
            cases j with
            | zero =>
              have : a ≤ m0 := Nat.le_of_not_lt h
              simp only [List.getD]
              simpa [List.getD] using Nat.lt_of_le_of_lt this hlt
            | succ k => simpa [List.getD] using hall k (by omega)

theorem getD_mem (l : List Nat) : ∀ (i d : Nat), i < l.length → l.getD i d ∈ l := by
  induction l with
  | nil => intro i d h; simp at h
  | cons a t ih =>
    intro i d h
    cases i with
    | zero => simp [List.getD]
    | succ k =>
      have := ih k d (by simpa using h)
      simpa [List.getD] using Or.inr this

theorem getD_set_self (l : List Nat) :
    ∀ (i a : Nat), i < l.length → (l.set i a).getD i 0 = a := by
  induction l with
  | nil => intro i a h; simp at h
  | cons x t ih =>
    intro i a h
    cases i with
    | zero => rfl
    | succ k =>
      have := ih k a (by simpa using h)
      simpa [List.set, List.getD] using this

theorem getD_set_ne (l : List Nat) :
    ∀ (i j a : Nat), i ≠ j → (l.set i a).getD j 0 = l.getD j 0 := by
  induction l with
  | nil => intro i j a _; simp [List.set]
  | cons x t ih =>
    intro i j a hij
    cases i with
    | zero =>
      cases j with
      | zero => exact absurd rfl hij
      | succ k => simp [List.set, List.getD]
    | succ n =>
      cases j with
      | zero => simp [List.set, List.getD]
      | succ k =>
        have := ih n k a (by omega)
        simpa [List.set, List.getD] using this

end Circuits

/-- C1: for every state of the ten encrypted vote counters, the circuit
reveal_winning_proposal returns a pair (winning_id, vote_count) such that
vote_count is the maximum value among the ten counters and winning_id is
the smallest index whose counter equals that maximum; in particular, when
all ten counters are zero it returns (0, 0). -/
theorem reveal_winning_proposal_correct (pv : Circuits.ProposalVotes)
    (h : pv.proposal_votes.length = 10) :
    (∀ i, i < 10 → pv.proposal_votes.getD i 0 ≤ (Circuits.reveal_winning_proposal pv).2) ∧
    (Circuits.reveal_winning_proposal pv).1 < 10 ∧
    pv.proposal_votes.getD (Circuits.reveal_winning_proposal pv).1 0 =
      (Circuits.reveal_winning_proposal pv).2 ∧
    (∀ j, j < (Circuits.reveal_winning_proposal pv).1 →
      pv.proposal_votes.getD j 0 ≠ (Circuits.reveal_winning_proposal pv).2) ∧
    ((∀ i, i < 10 → pv.proposal_votes.getD i 0 = 0) →
      Circuits.reveal_winning_proposal pv = (0, 0)) := by
  simp only [Circuits.reveal_winning_proposal]
  obtain ⟨h1, h2, h3⟩ := Circuits.revealLoop_spec pv.proposal_votes 0 0 0
  set r := Circuits.revealLoop 0 (0, 0) pv.proposal_votes with hr
  have hub : ∀ i, i < 10 → pv.proposal_votes.getD i 0 ≤ r.2 := by
    intro i hi
    exact h2 _ (Circuits.getD_mem pv.proposal_votes i 0 (by omega))
  have hmain : r.1 < 10 ∧ pv.proposal_votes.getD r.1 0 = r.2 ∧
      ∀ j, j < r.1 → pv.proposal_votes.getD j 0 ≠ r.2 := by
    rcases h3 with ⟨hw, hm⟩ | ⟨i, hi, hw, hg, _, hall⟩
    · refine ⟨by omega, ?_, by intro j hj; omega⟩
      have h0 : pv.proposal_votes.getD 0 0 ≤ r.2 := hub 0 (by omega)
      rw [hw, hm]
      rw [hm] at h0
      omega
    · refine ⟨by omega, ?_, ?_⟩
      · rw [hw]
        have hi0 : 0 + i = i := by omega
        rw [← hi0] at hg
        exact hg
      · intro j hj
        have hji : j < i := by omega
        have := hall j hji
        omega
  refine ⟨hub, hmain.1, hmain.2.1, hmain.2.2, ?_⟩
  intro hz
  have hv2 : r.2 = 0 := by
    have := hmain.2.1
    rw [hz _ hmain.1] at this
    omega
  have hv1 : r.1 = 0 := by
    by_contra hne
    have h0 : (0 : Nat) < r.1 := by omega
    have := hmain.2.2 0 h0
    rw [hz 0 (by omega), hv2] at this
    exact this rfl
  have hpair : r = (r.1, r.2) := rfl
  rw [hpair, hv1, hv2]

/-- Closed witness for C1 at a concrete tally where the maximum 3 first
occurs at index 1. -/
theorem reveal_winning_proposal_correct_witness :
    (Circuits.ProposalVotes.mk [0, 3, 1, 3, 0, 0, 0, 0, 0, 0]).proposal_votes.length = 10 ∧
    ((∀ i, i < 10 → (Circuits.ProposalVotes.mk [0, 3, 1, 3, 0, 0, 0, 0, 0, 0]).proposal_votes.getD i 0 ≤
        (Circuits.reveal_winning_proposal (Circuits.ProposalVotes.mk [0, 3, 1, 3, 0, 0, 0, 0, 0, 0])).2) ∧
      (Circuits.reveal_winning_proposal (Circuits.ProposalVotes.mk [0, 3, 1, 3, 0, 0, 0, 0, 0, 0])).1 < 10 ∧
      (Circuits.ProposalVotes.mk [0, 3, 1, 3, 0, 0, 0, 0, 0, 0]).proposal_votes.getD
          (Circuits.reveal_winning_proposal (Circuits.ProposalVotes.mk [0, 3, 1, 3, 0, 0, 0, 0, 0, 0])).1 0 =
        (Circuits.reveal_winning_proposal (Circuits.ProposalVotes.mk [0, 3, 1, 3, 0, 0, 0, 0, 0, 0])).2 ∧
      (∀ j, j < (Circuits.reveal_winning_proposal (Circuits.ProposalVotes.mk [0, 3, 1, 3, 0, 0, 0, 0, 0, 0])).1 →
        (Circuits.ProposalVotes.mk [0, 3, 1, 3, 0, 0, 0, 0, 0, 0]).proposal_votes.getD j 0 ≠
          (Circuits.reveal_winning_proposal (Circuits.ProposalVotes.mk [0, 3, 1, 3, 0, 0, 0, 0, 0, 0])).2) ∧
      ((∀ i, i < 10 → (Circuits.ProposalVotes.mk [0, 3, 1, 3, 0, 0, 0, 0, 0, 0]).proposal_votes.getD i 0 = 0) →
        Circuits.reveal_winning_proposal (Circuits.ProposalVotes.mk [0, 3, 1, 3, 0, 0, 0, 0, 0, 0]) = (0, 0))) :=
  ⟨by decide, reveal_winning_proposal_correct _ (by decide)⟩

/-- C2 (amended): for every tally of ten u64 counters and every decrypted
proposal id p, the circuit vote_for_proposal sets the counter at index p to
its old value plus one modulo 2 ^ 64 when p < 10 — which is exactly old
value plus one whenever that sum stays below 2 ^ 64 — leaves every other
slot unchanged, and returns the tally unchanged in every slot when
p >= 10. -/
theorem vote_for_proposal_circuit_spec (v : Circuits.UserVote) (pv : Circuits.ProposalVotes)
    (h : pv.proposal_votes.length = 10) :
    (v.proposal_id < 10 →
      (Circuits.vote_for_proposal v pv).proposal_votes.getD v.proposal_id 0 =
        (pv.proposal_votes.getD v.proposal_id 0 + 1) % U64_MOD ∧
      (pv.proposal_votes.getD v.proposal_id 0 + 1 < U64_MOD →
        (Circuits.vote_for_proposal v pv).proposal_votes.getD v.proposal_id 0 =
          pv.proposal_votes.getD v.proposal_id 0 + 1) ∧
      (∀ i, i ≠ v.proposal_id →
        (Circuits.vote_for_proposal v pv).proposal_votes.getD i 0 =
          pv.proposal_votes.getD i 0)) ∧
    (10 ≤ v.proposal_id → Circuits.vote_for_proposal v pv = pv) := by
  constructor
  · intro hp
    have hdef : Circuits.vote_for_proposal v pv =
        { proposal_votes :=
            pv.proposal_votes.set v.proposal_id
              ((pv.proposal_votes.getD v.proposal_id 0 + 1) % U64_MOD) } := by
      simp [Circuits.vote_for_proposal, hp]
    refine ⟨?_, ?_, ?_⟩
    · rw [hdef]
      exact Circuits.getD_set_self pv.proposal_votes v.proposal_id _ (by omega)
    · intro hlt
      rw [hdef]
      have := Circuits.getD_set_self pv.proposal_votes v.proposal_id
        ((pv.proposal_votes.getD v.proposal_id 0 + 1) % U64_MOD) (by omega)
      rw [this, Nat.mod_eq_of_lt hlt]
    · intro i hi
      rw [hdef]
      exact Circuits.getD_set_ne pv.proposal_votes v.proposal_id i _ (by omega)
  · intro hp
    have hnp : ¬ v.proposal_id < 10 := by omega
    simp [Circuits.vote_for_proposal, hnp]

/-- Closed witness for the amended C2 at a concrete tally and proposal id. -/
theorem vote_for_proposal_circuit_spec_witness :
    (Circuits.ProposalVotes.mk [5, 7, 0, 0, 0, 0, 0, 0, 0, 0]).proposal_votes.length = 10 ∧
    (((Circuits.UserVote.mk 1).proposal_id < 10 →
      (Circuits.vote_for_proposal (Circuits.UserVote.mk 1)
          (Circuits.ProposalVotes.mk [5, 7, 0, 0, 0, 0, 0, 0, 0, 0])).proposal_votes.getD
          (Circuits.UserVote.mk 1).proposal_id 0 =
        ((Circuits.ProposalVotes.mk [5, 7, 0, 0, 0, 0, 0, 0, 0, 0]).proposal_votes.getD
          (Circuits.UserVote.mk 1).proposal_id 0 + 1) % U64_MOD ∧
      ((Circuits.ProposalVotes.mk [5, 7, 0, 0, 0, 0, 0, 0, 0, 0]).proposal_votes.getD
          (Circuits.UserVote.mk 1).proposal_id 0 + 1 < U64_MOD →
        (Circuits.vote_for_proposal (Circuits.UserVote.mk 1)
            (Circuits.ProposalVotes.mk [5, 7, 0, 0, 0, 0, 0, 0, 0, 0])).proposal_votes.getD
            (Circuits.UserVote.mk 1).proposal_id 0 =
          (Circuits.ProposalVotes.mk [5, 7, 0, 0, 0, 0, 0, 0, 0, 0]).proposal_votes.getD
            (Circuits.UserVote.mk 1).proposal_id 0 + 1) ∧
      (∀ i, i ≠ (Circuits.UserVote.mk 1).proposal_id →
        (Circuits.vote_for_proposal (Circuits.UserVote.mk 1)
            (Circuits.ProposalVotes.mk [5, 7, 0, 0, 0, 0, 0, 0, 0, 0])).proposal_votes.getD i 0 =
          (Circuits.ProposalVotes.mk [5, 7, 0, 0, 0, 0, 0, 0, 0, 0]).proposal_votes.getD i 0)) ∧
    (10 ≤ (Circuits.UserVote.mk 1).proposal_id →
      Circuits.vote_for_proposal (Circuits.UserVote.mk 1)
          (Circuits.ProposalVotes.mk [5, 7, 0, 0, 0, 0, 0, 0, 0, 0]) =
        Circuits.ProposalVotes.mk [5, 7, 0, 0, 0, 0, 0, 0, 0, 0])) :=
  ⟨by decide, vote_for_proposal_circuit_spec _ _ (by decide)⟩

/-- Counterexample to C2 as stated: when the counter already holds the
largest u64 value, the u64 increment wraps to zero, so the counter is not
incremented by exactly one. -/
theorem vote_for_proposal_overflow_cex :
    (Circuits.vote_for_proposal (Circuits.UserVote.mk 0)
        (Circuits.ProposalVotes.mk
          [U64_MOD - 1, 0, 0, 0, 0, 0, 0, 0, 0, 0])).proposal_votes.getD 0 0 ≠
      (Circuits.ProposalVotes.mk
        [U64_MOD - 1, 0, 0, 0, 0, 0, 0, 0, 0, 0]).proposal_votes.getD 0 0 + 1 := by
  decide

namespace ProposalSystem

/-- Error kinds: the ErrorCode enum of the program plus the runtime-level
failures that Anchor account constraints and checked arithmetic raise
before or instead of a program error. -/
inductive ProgErr where
  | InvalidAuthority
  | AbortedComputation
  | ClusterNotSet
  | MaxProposalsReached
  | InvalidProposalId
  | AlreadyVoted
  | AccountAlreadyInitialized
  | InvalidRoundId
  | NoWinnerRevealed
  | InvalidVoteReceipt
  | VoteMismatch
  | InsufficientFunds
  | RoundEscrowNotActive
  | InvalidEscrowRoundId
  | AccountAlreadyInUse
  | AccountNotFound
  | ArithmeticUnderflow
deriving DecidableEq

/-- Typed arguments passed to queue_computation, as in the Argument enum of
the Arcium client: plaintext scalars, shared-encrypted scalars, the
submitting pubkey, or a byte-range reference into an on-chain account. -/
inductive Argument where
  | ArcisPubkey (pk : Ciphertext)
  | PlaintextU128 (n : Nat)
  | PlaintextU8 (n : Nat)
  | EncryptedU8 (c : Ciphertext)
  | Account (key : Nat) (offset : Nat) (len : Nat)
deriving DecidableEq

/-- The circuit a queued computation runs. -/
inductive CompKind where
  | initVotes
  | vote
  | revealWinner
  | decryptChoice
  | verifyWinner
deriving DecidableEq

/-- A computation request handed to the Arcium gateway by
queue_computation: circuit kind, computation offset, ordered arguments. -/
structure Computation where
  kind : CompKind
  offset : Nat
  args : List Argument
deriving DecidableEq

/-- Result of a queued computation as delivered to a callback. -/
inductive ComputationOutputs (α : Type) where
  | Success (out : α)
  | Aborted
deriving DecidableEq

/-- Callback payload of the init and vote circuits: ten fresh ciphertext
slots and the nonce they were encrypted under. -/
structure EncTallyPayload where
  ciphertexts : List Ciphertext
  nonce : Nat
deriving DecidableEq

/-- Callback payload of the reveal circuit: field_0 is the winning
proposal id (u8), field_1 the winning vote count (u64). -/
structure RevealPayload where
  field_0 : Nat
  field_1 : Nat
deriving DecidableEq

/-- ProposalSystemAccount: authority, tally nonce (u128), global proposal
counter (u8), ten 32-byte ciphertext tally slots, live winner fields and
the proposal submission fee. -/
structure ProposalSystemAccount where
  authority : Nat
  nonce : Nat
  next_proposal_id : Nat
  proposal_votes : List Ciphertext
  winning_proposal_id : Option Nat
  winning_vote_count : Option Nat
  proposal_submission_fee : Nat
deriving DecidableEq

/-- RoundMetadataAccount: current round (u64), per-round proposal counter
(u8), per-round voter counter (u64) and the round start timestamp. -/
structure RoundMetadataAccount where
  current_round : Nat
  proposals_in_current_round : Nat
  total_voters : Nat
  round_started : Int
deriving DecidableEq

/-- RoundStatus of a round escrow. -/
inductive RoundStatus where
  | Active
  | Completed
  | Closed
deriving DecidableEq

/-- RoundEscrowAccount: per-round fee accumulator. -/
structure RoundEscrowAccount where
  round_id : Nat
  total_collected : Nat
  total_distributed : Nat
  current_balance : Nat
  round_status : RoundStatus
  created_at : Int
deriving DecidableEq

/-- ProposalAccount: a submitted proposal. -/
structure ProposalAccount where
  id : Nat
  round_id : Nat
  submitter : Nat
  vote_count : Nat
  title : String
  description : String
  url : String
deriving DecidableEq

/-- VoteReceiptAccount: the per-voter-per-round receipt, storing only the
encrypted proposal id. -/
structure VoteReceiptAccount where
  voter : Nat
  encrypted_proposal_id : Ciphertext
  timestamp : Int
  vote_encryption_pubkey : Ciphertext
deriving DecidableEq

/-- VotingRoundHistoryAccount: the archived record of a closed round. -/
structure VotingRoundHistoryAccount where
  round_id : Nat
  winning_proposal_id : Nat
  revealed_at : Int
  revealed_by : Nat
  total_proposals : Nat
deriving DecidableEq

/-- Association-list lookup keyed by PDA seeds. -/
def findA {κ β : Type} [DecidableEq κ] (k : κ) : List (κ × β) → Option β
  | [] => none
  | (k1, v) :: rest => if k1 = k then some v else findA k rest

/-- Association-list update or insert keyed by PDA seeds. -/
def insertA {κ β : Type} [DecidableEq κ] (k : κ) (v : β) : List (κ × β) → List (κ × β)
  | [] => [(k, v)]
  | (k1, v1) :: rest => if k1 = k then (k, v) :: rest else (k1, v1) :: insertA k v rest

/-- The model tag for the address of the proposal_system PDA, referenced by
the Account arguments of the vote and reveal requests. -/
def system_acc_key : Nat := 0

/-- On-chain state owned by the program: the two singleton PDAs plus the
PDA-keyed families of receipt, proposal, escrow and history accounts, and
the list of computation requests queued with the gateway.  system_created
records whether the singleton accounts have been initialised. -/
structure ChainState where
  system_created : Bool
  system_acc : ProposalSystemAccount
  round_metadata : RoundMetadataAccount
  receipts : List ((Nat × Nat) × VoteReceiptAccount)
  proposals : List ((Nat × Nat) × ProposalAccount)
  escrows : List (Nat × RoundEscrowAccount)
  histories : List (Nat × VotingRoundHistoryAccount)
  queued : List Computation
deriving DecidableEq

/-- Instruction init_proposal_system: creates the two singleton accounts,
zeroes the tally slots and counters, stores the caller as authority and
queues the init_proposal_votes computation. -/
def init_proposal_system (s : ChainState) (payer : Nat) (computation_offset : Nat)
    (nonce : Nat) (now : Int) : Except ProgErr ChainState :=
  if s.system_created then .error .AccountAlreadyInUse else
  .ok { s with
    system_created := true
    system_acc := {
      authority := payer
      nonce := nonce
      next_proposal_id := 0
      proposal_votes := List.replicate 10 zeroCiphertext
      winning_proposal_id := none
      winning_vote_count := none
      proposal_submission_fee := 1000000 }
    round_metadata := {
      current_round := 0
      proposals_in_current_round := 0
      total_voters := 0
      round_started := now }
    queued := s.queued ++ [⟨.initVotes, computation_offset, [Argument.PlaintextU128 nonce]⟩] }

/-- Callback of the init_proposal_votes circuit: on success stores the
payload ciphertexts and nonce verbatim; on abort fails with
AbortedComputation and changes nothing. -/
def init_proposal_votes_callback (s : ChainState)
    (output : ComputationOutputs EncTallyPayload) : Except ProgErr ChainState :=
  if s.system_created = false then .error .AccountNotFound else
  match output with
  | .Success o =>
      .ok { s with system_acc :=
        { s.system_acc with proposal_votes := o.ciphertexts, nonce := o.nonce } }
  | .Aborted => .error .AbortedComputation

/-- Instruction submit_proposal: Anchor first runs the init constraint of
the proposal PDA keyed by (current_round, proposals_in_current_round) and
the init_if_needed constraint of the escrow PDA keyed by current_round;
the body then checks the per-round proposal cap and the fee, initialises
the escrow when its round_id and total_collected are both zero, validates
the escrow, collects the fee, writes the proposal account and increments
the per-round and global proposal counters. -/
def submit_proposal (s : ChainState) (payer : Nat) (payer_lamports : Nat)
    (title description url : String) (now : Int) : Except ProgErr ChainState :=
  if s.system_created = false then .error .AccountNotFound else
  if (findA (s.round_metadata.current_round, s.round_metadata.proposals_in_current_round)
      s.proposals).isSome then .error .AccountAlreadyInUse else
  if 10 ≤ s.round_metadata.proposals_in_current_round then .error .MaxProposalsReached else
  let proposal_id_in_round := s.round_metadata.proposals_in_current_round
  let current_round := s.round_metadata.current_round
  let fee := s.system_acc.proposal_submission_fee
  if payer_lamports < fee then .error .InsufficientFunds else
  let escrow0 := (findA current_round s.escrows).getD
    ⟨0, 0, 0, 0, RoundStatus.Active, 0⟩
  let escrow1 :=
    if escrow0.round_id = 0 ∧ escrow0.total_collected = 0 then
      { escrow0 with
        round_id := current_round
        total_collected := 0
        total_distributed := 0
        current_balance := 0
        round_status := RoundStatus.Active
        created_at := now }
    else escrow0
  if escrow1.round_id ≠ current_round then .error .InvalidEscrowRoundId else
  if escrow1.round_status ≠ RoundStatus.Active then .error .RoundEscrowNotActive else
  let escrow2 := { escrow1 with
    total_collected := escrow1.total_collected + fee
    current_balance := escrow1.current_balance + fee }
  .ok { s with
    proposals := ((current_round, proposal_id_in_round),
      ⟨proposal_id_in_round, current_round, payer, 0, title, description, url⟩) :: s.proposals
    escrows := insertA current_round escrow2 s.escrows
    round_metadata := { s.round_metadata with
      proposals_in_current_round := s.round_metadata.proposals_in_current_round + 1 }
    system_acc := { s.system_acc with
      next_proposal_id := s.system_acc.next_proposal_id + 1 } }

/-- Instruction vote_for_proposal: derives the receipt PDA from the caller
and the given round_id, rejects when that account already holds data,
validates the round and the plaintext proposal id, creates the receipt
storing only the encrypted choice, increments the voter counter and queues
the vote computation over the current tally and nonce.  The plaintext
proposal_id is used for validation only and never enters the queued
arguments. -/
def vote_for_proposal (s : ChainState) (payer : Nat) (computation_offset : Nat)
    (proposal_id : Nat) (encrypted_proposal_id : Ciphertext) (vote : Ciphertext)
    (vote_encryption_pubkey : Ciphertext) (vote_nonce : Nat) (round_id : Nat)
    (now : Int) : Except ProgErr ChainState :=
  if s.system_created = false then .error .AccountNotFound else
  if (findA (payer, round_id) s.receipts).isSome then .error .AccountAlreadyInitialized else
  if round_id ≠ s.round_metadata.current_round then .error .InvalidRoundId else
  if ¬ proposal_id < s.round_metadata.proposals_in_current_round then
    .error .InvalidProposalId else
  .ok { s with
    receipts := ((payer, round_id),
      ⟨payer, encrypted_proposal_id, now, vote_encryption_pubkey⟩) :: s.receipts
    round_metadata := { s.round_metadata with
      total_voters := s.round_metadata.total_voters + 1 }
    queued := s.queued ++ [⟨.vote, computation_offset,
      [Argument.ArcisPubkey vote_encryption_pubkey,
       Argument.PlaintextU128 vote_nonce,
       Argument.EncryptedU8 vote,
       Argument.PlaintextU128 s.system_acc.nonce,
       Argument.Account system_acc_key 58 320]⟩] }

/-- Callback of the vote circuit: on success stores the payload
ciphertexts and nonce verbatim; on abort fails with AbortedComputation and
changes nothing.  No comparison with the previous nonce is performed. -/
def vote_for_proposal_callback (s : ChainState)
    (output : ComputationOutputs EncTallyPayload) : Except ProgErr ChainState :=
  if s.system_created = false then .error .AccountNotFound else
  match output with
  | .Success o =>
      .ok { s with system_acc :=
        { s.system_acc with proposal_votes := o.ciphertexts, nonce := o.nonce } }
  | .Aborted => .error .AbortedComputation

/-- Instruction decrypt_vote: queues the decrypt computation; the only
state change is the queued request. -/
def decrypt_vote (s : ChainState) (computation_offset : Nat) (vote : Ciphertext)
    (vote_encryption_pubkey : Ciphertext) (vote_nonce : Nat) : Except ProgErr ChainState :=
  if s.system_created = false then .error .AccountNotFound else
  .ok { s with queued := s.queued ++ [⟨.decryptChoice, computation_offset,
    [Argument.ArcisPubkey vote_encryption_pubkey,
     Argument.PlaintextU128 vote_nonce,
     Argument.EncryptedU8 vote]⟩] }

/-- Callback of the decrypt circuit: emits an event only. -/
def decrypt_vote_callback (s : ChainState)
    (output : ComputationOutputs Nat) : Except ProgErr ChainState :=
  if s.system_created = false then .error .AccountNotFound else
  match output with
  | .Success _ => .ok s
  | .Aborted => .error .AbortedComputation

/-- Instruction verify_winning_vote: requires a closed round, the caller
receipt for that round, and that the presented ciphertext equals the
stored encrypted choice; reads the archived winner and queues the verify
computation.  Presenting an account that never was written aborts when its
data is read. -/
def verify_winning_vote (s : ChainState) (payer : Nat) (computation_offset : Nat)
    (vote : Ciphertext) (vote_encryption_pubkey : Ciphertext) (vote_nonce : Nat)
    (round_id : Nat) : Except ProgErr ChainState :=
  if s.system_created = false then .error .AccountNotFound else
  if ¬ round_id < s.round_metadata.current_round then .error .InvalidRoundId else
  match findA (payer, round_id) s.receipts with
  | none => .error .AccountNotFound
  | some receipt =>
    if receipt.encrypted_proposal_id ≠ vote then .error .VoteMismatch else
    match findA round_id s.histories with
    | none => .error .AccountNotFound
    | some hist =>
      .ok { s with queued := s.queued ++ [⟨.verifyWinner, computation_offset,
        [Argument.ArcisPubkey vote_encryption_pubkey,
         Argument.PlaintextU128 vote_nonce,
         Argument.EncryptedU8 vote,
         Argument.PlaintextU8 hist.winning_proposal_id]⟩] }

/-- Callback of the verify circuit: emits an event only. -/
def verify_winning_vote_callback (s : ChainState)
    (output : ComputationOutputs Bool) : Except ProgErr ChainState :=
  if s.system_created = false then .error .AccountNotFound else
  match output with
  | .Success _ => .ok s
  | .Aborted => .error .AbortedComputation

/-- Instruction reveal_winning_proposal: authority-only; queues the reveal
computation over the current tally and nonce.  No check against already
pending computations is performed. -/
def reveal_winning_proposal (s : ChainState) (payer : Nat)
    (computation_offset : Nat) (_system_id : Nat) : Except ProgErr ChainState :=
  if s.system_created = false then .error .AccountNotFound else
  if payer ≠ s.system_acc.authority then .error .InvalidAuthority else
  .ok { s with queued := s.queued ++ [⟨.revealWinner, computation_offset,
    [Argument.PlaintextU128 s.system_acc.nonce,
     Argument.Account system_acc_key 58 320]⟩] }

/-- Callback of the reveal circuit: on success stores the declassified
winner pair in the live winner fields, increments the round counter and
stamps the new round start; on abort fails and changes nothing. -/
def reveal_winning_proposal_callback (s : ChainState)
    (output : ComputationOutputs RevealPayload) (now : Int) : Except ProgErr ChainState :=
  if s.system_created = false then .error .AccountNotFound else
  match output with
  | .Success r =>
      .ok { s with
        system_acc := { s.system_acc with
          winning_proposal_id := some r.field_0
          winning_vote_count := some r.field_1 }
        round_metadata := { s.round_metadata with
          current_round := s.round_metadata.current_round + 1
          round_started := now } }
  | .Aborted => .error .AbortedComputation

/-- Instruction create_round_history: Anchor first computes the history
PDA seeds from current_round - 1 (u64 subtraction, failing below zero) and
runs its init constraint, which rejects an existing account; the body then
checks the authority and that a winner is revealed, writes the history
entry from the live fields — total_proposals from the global
next_proposal_id counter — and resets the live winner fields, the tally
slots and the per-round counters.  The nonce is assigned to itself, as in
the source line that self-assigns it. -/
def create_round_history (s : ChainState) (payer : Nat) (now : Int) :
    Except ProgErr ChainState :=
  if s.system_created = false then .error .AccountNotFound else
  if s.round_metadata.current_round = 0 then .error .ArithmeticUnderflow else
  if (findA (s.round_metadata.current_round - 1) s.histories).isSome then
    .error .AccountAlreadyInUse else
  if payer ≠ s.system_acc.authority then .error .InvalidAuthority else
  match s.system_acc.winning_proposal_id with
  | none => .error .NoWinnerRevealed
  | some winning =>
    let round_id := s.round_metadata.current_round - 1
    .ok { s with
      histories := (round_id,
        ⟨round_id, winning, now, payer, s.system_acc.next_proposal_id⟩) :: s.histories
      system_acc := { s.system_acc with
        winning_proposal_id := none
        winning_vote_count := none
        proposal_votes := List.replicate 10 zeroCiphertext
        nonce := s.system_acc.nonce }
      round_metadata := { s.round_metadata with
        proposals_in_current_round := 0
        total_voters := 0 } }

/-- The instructions and callbacks of the program, as one step alphabet. -/
inductive Ix where
  | initSystem (payer computation_offset nonce : Nat) (now : Int)
  | initVotesCb (output : ComputationOutputs EncTallyPayload)
  | submitProp (payer payer_lamports : Nat) (title description url : String) (now : Int)
  | castVote (payer computation_offset proposal_id : Nat)
      (encrypted_proposal_id vote vote_encryption_pubkey : Ciphertext)
      (vote_nonce round_id : Nat) (now : Int)
  | voteCb (output : ComputationOutputs EncTallyPayload)
  | decryptIx (computation_offset : Nat) (vote vote_encryption_pubkey : Ciphertext)
      (vote_nonce : Nat)
  | decryptCb (output : ComputationOutputs Nat)
  | verifyIx (payer computation_offset : Nat) (vote vote_encryption_pubkey : Ciphertext)
      (vote_nonce round_id : Nat)
  | verifyCb (output : ComputationOutputs Bool)
  | revealIx (payer computation_offset system_id : Nat)
  | revealCb (output : ComputationOutputs RevealPayload) (now : Int)
  | archiveIx (payer : Nat) (now : Int)

/-- One program step: dispatch an instruction or callback to its handler. -/
def step (s : ChainState) : Ix → Except ProgErr ChainState
  | .initSystem p off n now => init_proposal_system s p off n now
  | .initVotesCb o => init_proposal_votes_callback s o
  | .submitProp p pl t d u now => submit_proposal s p pl t d u now
  | .castVote p off pid epid v pk vn rid now =>
      vote_for_proposal s p off pid epid v pk vn rid now
  | .voteCb o => vote_for_proposal_callback s o
  | .decryptIx off v pk vn => decrypt_vote s off v pk vn
  | .decryptCb o => decrypt_vote_callback s o
  | .verifyIx p off v pk vn rid => verify_winning_vote s p off v pk vn rid
  | .verifyCb o => verify_winning_vote_callback s o
  | .revealIx p off sid => reveal_winning_proposal s p off sid
  | .revealCb o now => reveal_winning_proposal_callback s o now
  | .archiveIx p now => create_round_history s p now

end ProposalSystem

namespace ProposalSystem

theorem findA_none_not_mem {κ β : Type} [DecidableEq κ] (k : κ) :
    ∀ l : List (κ × β), findA k l = none → k ∉ l.map Prod.fst := by
  intro l
  induction l with
  | nil => simp
  | cons p rest ih =>
    obtain ⟨k1, v⟩ := p
    intro h hmem
    simp only [findA] at h
    split at h
    · exact Option.noConfusion h
    · rename_i hne
      simp only [List.map_cons, List.mem_cons] at hmem
      rcases hmem with hmem | hmem
      · exact hne hmem.symm
      · exact ih h hmem

theorem keys_nodup_cons {κ β : Type} [DecidableEq κ] (k : κ) (v : β)
    (l : List (κ × β)) (hfind : findA k l = none)
    (h : (l.map Prod.fst).Nodup) : (((k, v) :: l).map Prod.fst).Nodup := by
  simp only [List.map_cons, List.nodup_cons]
  exact ⟨findA_none_not_mem k l hfind, h⟩

theorem init_proposal_system_ok (s : ChainState) (p off n : Nat) (now : Int)
    (s' : ChainState) (h : init_proposal_system s p off n now = .ok s') :
    s'.receipts = s.receipts ∧ s'.histories = s.histories := by
  simp only [init_proposal_system] at h
  split at h
  · exact Except.noConfusion h
  · simp only [Except.ok.injEq] at h
    subst h
    exact ⟨rfl, rfl⟩

theorem init_proposal_votes_callback_ok (s : ChainState)
    (o : ComputationOutputs EncTallyPayload) (s' : ChainState)
    (h : init_proposal_votes_callback s o = .ok s') :
    s'.receipts = s.receipts ∧ s'.histories = s.histories ∧
    ∃ pl, o = .Success pl := by
  simp only [init_proposal_votes_callback] at h
  split at h
  · exact Except.noConfusion h
  · split at h
    · rename_i pl
      simp only [Except.ok.injEq] at h
      subst h
      exact ⟨rfl, rfl, pl, rfl⟩
    · exact Except.noConfusion h

theorem submit_proposal_ok (s : ChainState) (p pl : Nat) (t d u : String)
    (now : Int) (s' : ChainState) (h : submit_proposal s p pl t d u now = .ok s') :
    s'.receipts = s.receipts ∧ s'.histories = s.histories ∧
    s'.system_acc.proposal_votes = s.system_acc.proposal_votes ∧
    s'.system_acc.nonce = s.system_acc.nonce := by
  simp only [submit_proposal] at h
  repeat' split at h
  all_goals try exact Except.noConfusion h
  all_goals simp only [Except.ok.injEq] at h
  all_goals subst h
  all_goals exact ⟨rfl, rfl, rfl, rfl⟩

theorem vote_for_proposal_ok (s : ChainState) (p off pid : Nat)
    (epid v pk : Ciphertext) (vn rid : Nat) (now : Int) (s' : ChainState)
    (h : vote_for_proposal s p off pid epid v pk vn rid now = .ok s') :
    findA (p, rid) s.receipts = none ∧
    s'.receipts = ((p, rid), ⟨p, epid, now, pk⟩) :: s.receipts ∧
    s'.histories = s.histories ∧
    s'.system_acc.proposal_votes = s.system_acc.proposal_votes ∧
    s'.system_acc.nonce = s.system_acc.nonce := by
  simp only [vote_for_proposal] at h
  split at h
  · exact Except.noConfusion h
  split at h
  · exact Except.noConfusion h
  rename_i hdup
  split at h
  · exact Except.noConfusion h
  split at h
  · exact Except.noConfusion h
  simp only [Except.ok.injEq] at h
  subst h
  refine ⟨Option.not_isSome_iff_eq_none.mp (by simpa using hdup), rfl, rfl, rfl, rfl⟩

theorem vote_for_proposal_callback_ok (s : ChainState)
    (o : ComputationOutputs EncTallyPayload) (s' : ChainState)
    (h : vote_for_proposal_callback s o = .ok s') :
    s'.receipts = s.receipts ∧ s'.histories = s.histories ∧
    ∃ pl, o = .Success pl := by
  simp only [vote_for_proposal_callback] at h
  split at h
  · exact Except.noConfusion h
  · split at h
    · rename_i pl
      simp only [Except.ok.injEq] at h
      subst h
      exact ⟨rfl, rfl, pl, rfl⟩
    · exact Except.noConfusion h

theorem decrypt_vote_ok (s : ChainState) (off : Nat) (v pk : Ciphertext)
    (vn : Nat) (s' : ChainState) (h : decrypt_vote s off v pk vn = .ok s') :
    s'.receipts = s.receipts ∧ s'.histories = s.histories ∧
    s'.system_acc.proposal_votes = s.system_acc.proposal_votes ∧
    s'.system_acc.nonce = s.system_acc.nonce := by
  simp only [decrypt_vote] at h
  split at h
  · exact Except.noConfusion h
  · simp only [Except.ok.injEq] at h
    subst h
    exact ⟨rfl, rfl, rfl, rfl⟩

theorem decrypt_vote_callback_ok (s : ChainState) (o : ComputationOutputs Nat)
    (s' : ChainState) (h : decrypt_vote_callback s o = .ok s') :
    s'.receipts = s.receipts ∧ s'.histories = s.histories ∧
    s'.system_acc.proposal_votes = s.system_acc.proposal_votes ∧
    s'.system_acc.nonce = s.system_acc.nonce := by
  simp only [decrypt_vote_callback] at h
  split at h
  · exact Except.noConfusion h
  · split at h
    · simp only [Except.ok.injEq] at h
      subst h
      exact ⟨rfl, rfl, rfl, rfl⟩
    · exact Except.noConfusion h

theorem verify_winning_vote_ok (s : ChainState) (p off : Nat)
    (v pk : Ciphertext) (vn rid : Nat) (s' : ChainState)
    (h : verify_winning_vote s p off v pk vn rid = .ok s') :
    s'.receipts = s.receipts ∧ s'.histories = s.histories ∧
    s'.system_acc.proposal_votes = s.system_acc.proposal_votes ∧
    s'.system_acc.nonce = s.system_acc.nonce := by
  simp only [verify_winning_vote] at h
  repeat' split at h
  all_goals try exact Except.noConfusion h
  simp only [Except.ok.injEq] at h
  subst h
  exact ⟨rfl, rfl, rfl, rfl⟩

theorem verify_winning_vote_callback_ok (s : ChainState)
    (o : ComputationOutputs Bool) (s' : ChainState)
    (h : verify_winning_vote_callback s o = .ok s') :
    s'.receipts = s.receipts ∧ s'.histories = s.histories ∧
    s'.system_acc.proposal_votes = s.system_acc.proposal_votes ∧
    s'.system_acc.nonce = s.system_acc.nonce := by
  simp only [verify_winning_vote_callback] at h
  split at h
  · exact Except.noConfusion h
  · split at h
    · simp only [Except.ok.injEq] at h
      subst h
      exact ⟨rfl, rfl, rfl, rfl⟩
    · exact Except.noConfusion h

theorem reveal_winning_proposal_ok (s : ChainState) (p off sid : Nat)
    (s' : ChainState) (h : reveal_winning_proposal s p off sid = .ok s') :
    s'.receipts = s.receipts ∧ s'.histories = s.histories ∧
    s'.system_acc.proposal_votes = s.system_acc.proposal_votes ∧
    s'.system_acc.nonce = s.system_acc.nonce := by
  simp only [reveal_winning_proposal] at h
  repeat' split at h
  all_goals try exact Except.noConfusion h
  simp only [Except.ok.injEq] at h
  subst h
  exact ⟨rfl, rfl, rfl, rfl⟩

theorem reveal_winning_proposal_callback_ok (s : ChainState)
    (o : ComputationOutputs RevealPayload) (now : Int) (s' : ChainState)
    (h : reveal_winning_proposal_callback s o now = .ok s') :
    s'.receipts = s.receipts ∧ s'.histories = s.histories ∧
    s'.system_acc.proposal_votes = s.system_acc.proposal_votes ∧
    s'.system_acc.nonce = s.system_acc.nonce := by
  simp only [reveal_winning_proposal_callback] at h
  split at h
  · exact Except.noConfusion h
  · split at h
    · simp only [Except.ok.injEq] at h
      subst h
      exact ⟨rfl, rfl, rfl, rfl⟩
    · exact Except.noConfusion h

theorem create_round_history_ok (s : ChainState) (p : Nat) (now : Int)
    (s' : ChainState) (h : create_round_history s p now = .ok s') :
    s'.receipts = s.receipts ∧
    s'.system_acc.nonce = s.system_acc.nonce ∧
    findA (s.round_metadata.current_round - 1) s.histories = none ∧
    ∃ hist, s'.histories =
      (s.round_metadata.current_round - 1, hist) :: s.histories := by
  simp only [create_round_history] at h
  split at h
  · exact Except.noConfusion h
  split at h
  · exact Except.noConfusion h
  split at h
  · exact Except.noConfusion h
  rename_i hnone
  split at h
  · exact Except.noConfusion h
  split at h
  · exact Except.noConfusion h
  · rename_i winning heq
    simp only [Except.ok.injEq] at h
    subst h
    exact ⟨rfl, rfl, Option.not_isSome_iff_eq_none.mp (by simpa using hnone),
      ⟨s.round_metadata.current_round - 1, winning, now, p,
        s.system_acc.next_proposal_id⟩, rfl⟩

end ProposalSystem

namespace ProposalSystem

theorem step_receipts_nodup (s : ChainState) (ix : Ix) (s' : ChainState)
    (h : step s ix = .ok s') (hn : (s.receipts.map Prod.fst).Nodup) :
    (s'.receipts.map Prod.fst).Nodup := by
  cases ix with
  | initSystem p off n now =>
      rw [(init_proposal_system_ok s p off n now s' h).1]; exact hn
  | initVotesCb o =>
      rw [(init_proposal_votes_callback_ok s o s' h).1]; exact hn
  | submitProp p pl t d u now =>
      rw [(submit_proposal_ok s p pl t d u now s' h).1]; exact hn
  | castVote p off pid epid v pk vn rid now =>
      obtain ⟨hfind, heq, _, _, _⟩ :=
        vote_for_proposal_ok s p off pid epid v pk vn rid now s' h
      rw [heq]
      exact keys_nodup_cons _ _ _ hfind hn
  | voteCb o =>
      rw [(vote_for_proposal_callback_ok s o s' h).1]; exact hn
  | decryptIx off v pk vn =>
      rw [(decrypt_vote_ok s off v pk vn s' h).1]; exact hn
  | decryptCb o =>
      rw [(decrypt_vote_callback_ok s o s' h).1]; exact hn
  | verifyIx p off v pk vn rid =>
      rw [(verify_winning_vote_ok s p off v pk vn rid s' h).1]; exact hn
  | verifyCb o =>
      rw [(verify_winning_vote_callback_ok s o s' h).1]; exact hn
  | revealIx p off sid =>
      rw [(reveal_winning_proposal_ok s p off sid s' h).1]; exact hn
  | revealCb o now =>
      rw [(reveal_winning_proposal_callback_ok s o now s' h).1]; exact hn
  | archiveIx p now =>
      rw [(create_round_history_ok s p now s' h).1]; exact hn

theorem step_histories_nodup (s : ChainState) (ix : Ix) (s' : ChainState)
    (h : step s ix = .ok s') (hn : (s.histories.map Prod.fst).Nodup) :
    (s'.histories.map Prod.fst).Nodup := by
  cases ix with
  | initSystem p off n now =>
      rw [(init_proposal_system_ok s p off n now s' h).2]; exact hn
  | initVotesCb o =>
      rw [(init_proposal_votes_callback_ok s o s' h).2.1]; exact hn
  | submitProp p pl t d u now =>
      rw [(submit_proposal_ok s p pl t d u now s' h).2.1]; exact hn
  | castVote p off pid epid v pk vn rid now =>
      rw [(vote_for_proposal_ok s p off pid epid v pk vn rid now s' h).2.2.1]; exact hn
  | voteCb o =>
      rw [(vote_for_proposal_callback_ok s o s' h).2.1]; exact hn
  | decryptIx off v pk vn =>
      rw [(decrypt_vote_ok s off v pk vn s' h).2.1]; exact hn
  | decryptCb o =>
      rw [(decrypt_vote_callback_ok s o s' h).2.1]; exact hn
  | verifyIx p off v pk vn rid =>
      rw [(verify_winning_vote_ok s p off v pk vn rid s' h).2.1]; exact hn
  | verifyCb o =>
      rw [(verify_winning_vote_callback_ok s o s' h).2.1]; exact hn
  | revealIx p off sid =>
      rw [(reveal_winning_proposal_ok s p off sid s' h).2.1]; exact hn
  | revealCb o now =>
      rw [(reveal_winning_proposal_callback_ok s o now s' h).2.1]; exact hn
  | archiveIx p now =>
      obtain ⟨_, _, hfind, hist, heq⟩ := create_round_history_ok s p now s' h
      rw [heq]
      exact keys_nodup_cons _ _ _ hfind hn

end ProposalSystem

/-- A nonzero sample ciphertext used in concrete states. -/
def sampleCiphertext : Ciphertext := List.replicate 32 9

/-- A concrete running state: round 1 open after one reveal, three
proposals counted globally, winner fields live, tally nonce 42, one
receipt stored for voter 7 in round 1 and no history entry yet. -/
def baseState : ProposalSystem.ChainState := {
  system_created := true
  system_acc := ⟨1, 42, 3, List.replicate 10 sampleCiphertext, some 1, some 3, 1000000⟩
  round_metadata := ⟨1, 3, 5, 0⟩
  receipts := [((7, 1), ⟨7, sampleCiphertext, 2, sampleCiphertext⟩)]
  proposals := []
  escrows := []
  histories := []
  queued := [] }

/-- C3 (amended): if a vote receipt already exists for (voter, round_id),
the vote_for_proposal instruction fails with AccountAlreadyInitialized —
the check that fires is the account-data emptiness check, not the unused
AlreadyVoted error — and creates no new receipt, so at most one
VoteReceipt ever exists per (voter, round_id) pair. -/
theorem cast_vote_duplicate_receipt_spec (s : ProposalSystem.ChainState)
    (payer off pid : Nat) (epid vote pk : Ciphertext) (vn rid : Nat) (now : Int)
    (hcreated : s.system_created = true)
    (hdup : (ProposalSystem.findA (payer, rid) s.receipts).isSome = true) :
    ProposalSystem.vote_for_proposal s payer off pid epid vote pk vn rid now =
      .error ProposalSystem.ProgErr.AccountAlreadyInitialized ∧
    ∀ s0 ix s1, ProposalSystem.step s0 ix = .ok s1 →
      (s0.receipts.map Prod.fst).Nodup → (s1.receipts.map Prod.fst).Nodup := by
  constructor
  · simp [ProposalSystem.vote_for_proposal, hcreated, hdup]
  · exact fun s0 ix s1 h hn => ProposalSystem.step_receipts_nodup s0 ix s1 h hn

/-- Closed witness for the amended C3 at a concrete duplicate receipt. -/
theorem cast_vote_duplicate_receipt_spec_witness :
    baseState.system_created = true ∧
    (ProposalSystem.findA (7, 1) baseState.receipts).isSome = true ∧
    (ProposalSystem.vote_for_proposal baseState 7 50 0 sampleCiphertext
        sampleCiphertext sampleCiphertext 5 1 3 =
      .error ProposalSystem.ProgErr.AccountAlreadyInitialized ∧
    ∀ s0 ix s1, ProposalSystem.step s0 ix = .ok s1 →
      (s0.receipts.map Prod.fst).Nodup → (s1.receipts.map Prod.fst).Nodup) :=
  ⟨by decide, by decide,
    cast_vote_duplicate_receipt_spec baseState 7 50 0 sampleCiphertext
      sampleCiphertext sampleCiphertext 5 1 3 (by decide) (by decide)⟩

/-- Counterexample to C3 as stated: with a receipt already present for
voter 7 in round 1, the call fails with AccountAlreadyInitialized, not
with AlreadyVoted. -/
theorem cast_vote_duplicate_receipt_cex :
    ProposalSystem.vote_for_proposal baseState 7 50 0 sampleCiphertext
        sampleCiphertext sampleCiphertext 5 1 3 ≠
      .error ProposalSystem.ProgErr.AlreadyVoted ∧
    ProposalSystem.vote_for_proposal baseState 7 50 0 sampleCiphertext
        sampleCiphertext sampleCiphertext 5 1 3 =
      .error ProposalSystem.ProgErr.AccountAlreadyInitialized := by
  decide

/-- C4 (amended): a successful vote callback stores the payload nonce
verbatim; the stored nonce differs from the immediately prior value
exactly when the payload nonce differs from it — the program performs no
inequality check of its own. -/
theorem vote_callback_nonce_spec (s : ProposalSystem.ChainState)
    (o : ProposalSystem.EncTallyPayload) (hcreated : s.system_created = true) :
    ProposalSystem.vote_for_proposal_callback s (.Success o) =
      .ok { s with system_acc := { s.system_acc with
        proposal_votes := o.ciphertexts, nonce := o.nonce } } ∧
    (({ s with system_acc := { s.system_acc with
          proposal_votes := o.ciphertexts, nonce := o.nonce } } :
            ProposalSystem.ChainState).system_acc.nonce ≠ s.system_acc.nonce ↔
      o.nonce ≠ s.system_acc.nonce) := by
  constructor
  · simp [ProposalSystem.vote_for_proposal_callback, hcreated]
  · exact Iff.rfl

/-- Closed witness for the amended C4 at a concrete payload. -/
theorem vote_callback_nonce_spec_witness :
    baseState.system_created = true ∧
    (ProposalSystem.vote_for_proposal_callback baseState
        (.Success ⟨List.replicate 10 zeroCiphertext, 43⟩) =
      .ok { baseState with system_acc := { baseState.system_acc with
        proposal_votes :=
          (⟨List.replicate 10 zeroCiphertext, 43⟩ :
            ProposalSystem.EncTallyPayload).ciphertexts,
        nonce :=
          (⟨List.replicate 10 zeroCiphertext, 43⟩ :
            ProposalSystem.EncTallyPayload).nonce } } ∧
    (({ baseState with system_acc := { baseState.system_acc with
          proposal_votes :=
            (⟨List.replicate 10 zeroCiphertext, 43⟩ :
              ProposalSystem.EncTallyPayload).ciphertexts,
          nonce :=
            (⟨List.replicate 10 zeroCiphertext, 43⟩ :
              ProposalSystem.EncTallyPayload).nonce } } :
            ProposalSystem.ChainState).system_acc.nonce ≠
        baseState.system_acc.nonce ↔
      (⟨List.replicate 10 zeroCiphertext, 43⟩ :
        ProposalSystem.EncTallyPayload).nonce ≠ baseState.system_acc.nonce)) :=
  ⟨by decide, vote_callback_nonce_spec baseState
    ⟨List.replicate 10 zeroCiphertext, 43⟩ (by decide)⟩

/-- Counterexample to C4 as stated: a vote callback whose payload carries
the same nonce 42 as the stored one succeeds and leaves the stored nonce
equal to, not strictly different from, its prior value. -/
theorem vote_callback_nonce_cex :
    (ProposalSystem.vote_for_proposal_callback baseState
        (.Success ⟨List.replicate 10 zeroCiphertext, 42⟩)).map
        (fun s1 => s1.system_acc.nonce) = .ok 42 ∧
    baseState.system_acc.nonce = 42 := by
  decide

/-- C5: at the concrete post-reveal state baseState the archive step
succeeds, clears the winner fields, zeroes the ten tally slots, resets the
round counters, but leaves the tally nonce at its previous value 42: the
source line assigns the nonce to itself although its comment announces an
increment, so no new nonce is ever produced. -/
theorem create_round_history_nonce_unchanged :
    (ProposalSystem.create_round_history baseState 1 9).map
      (fun s1 => s1.system_acc.nonce) = .ok 42 ∧
    baseState.system_acc.nonce = 42 ∧
    (ProposalSystem.create_round_history baseState 1 9).map
      (fun s1 => s1.system_acc.winning_proposal_id) = .ok none ∧
    (ProposalSystem.create_round_history baseState 1 9).map
      (fun s1 => s1.system_acc.winning_vote_count) = .ok none ∧
    (ProposalSystem.create_round_history baseState 1 9).map
      (fun s1 => s1.system_acc.proposal_votes) =
      .ok (List.replicate 10 zeroCiphertext) ∧
    (ProposalSystem.create_round_history baseState 1 9).map
      (fun s1 => (s1.round_metadata.proposals_in_current_round,
        s1.round_metadata.total_voters)) = .ok (0, 0) := by
  exact ⟨by decide, by decide, by decide, by decide, by decide, by decide⟩

/-- The empty pre-deployment state. -/
def initialState : ProposalSystem.ChainState := {
  system_created := false
  system_acc := ⟨0, 0, 0, [], none, none, 0⟩
  round_metadata := ⟨0, 0, 0, 0⟩
  receipts := []
  proposals := []
  escrows := []
  histories := []
  queued := [] }

/-- A two-round run: initialise, submit three proposals in round 0, reveal
a winner, archive, submit two proposals in round 1, reveal and archive
again. -/
def roundsTrace : Except ProposalSystem.ProgErr ProposalSystem.ChainState :=
  ProposalSystem.init_proposal_system initialState 1 10 100 0 >>= fun s =>
  ProposalSystem.init_proposal_votes_callback s
    (.Success ⟨List.replicate 10 sampleCiphertext, 101⟩) >>= fun s =>
  ProposalSystem.submit_proposal s 2 2000000 "pa" "da" "ua" 1 >>= fun s =>
  ProposalSystem.submit_proposal s 3 2000000 "pb" "db" "ub" 2 >>= fun s =>
  ProposalSystem.submit_proposal s 4 2000000 "pc" "dc" "uc" 3 >>= fun s =>
  ProposalSystem.reveal_winning_proposal s 1 12 0 >>= fun s =>
  ProposalSystem.reveal_winning_proposal_callback s (.Success ⟨1, 3⟩) 4 >>= fun s =>
  ProposalSystem.create_round_history s 1 5 >>= fun s =>
  ProposalSystem.submit_proposal s 5 2000000 "pd" "dd" "ud" 6 >>= fun s =>
  ProposalSystem.submit_proposal s 6 2000000 "pe" "de" "ue" 7 >>= fun s =>
  ProposalSystem.reveal_winning_proposal s 1 13 0 >>= fun s =>
  ProposalSystem.reveal_winning_proposal_callback s (.Success ⟨0, 2⟩) 8 >>= fun s =>
  ProposalSystem.create_round_history s 1 9

/-- C6: on the two-round run above, the round 0 history entry carries
round_id 0, winner 1 and total_proposals 3 as the claim describes, but the
round 1 entry carries total_proposals 5 — the global never-reset
next_proposal_id counter — although exactly two proposals, ids 0 and 1,
were submitted in round 1: the stored count is cumulative across rounds,
against the claim and the field documentation. -/
theorem round_history_total_proposals_bug :
    roundsTrace.map (fun s => (ProposalSystem.findA 0 s.histories).map
      (fun h => (h.round_id, h.winning_proposal_id, h.total_proposals))) =
      .ok (some (0, 1, 3)) ∧
    roundsTrace.map (fun s => (ProposalSystem.findA 1 s.histories).map
      (fun h => (h.round_id, h.total_proposals))) = .ok (some (1, 5)) ∧
    roundsTrace.map (fun s => ((ProposalSystem.findA (1, 0) s.proposals).isSome,
      (ProposalSystem.findA (1, 1) s.proposals).isSome,
      (ProposalSystem.findA (1, 2) s.proposals).isSome)) =
      .ok (true, true, false) := by
  exact ⟨by decide, by decide, by decide⟩

/-- A concrete state in which round 0 has already been archived while
round 1 is the current round: the history entry for round 0 exists. -/
def archivedState : ProposalSystem.ChainState :=
  { baseState with histories := [(0, ⟨0, 1, 5, 1, 3⟩)] }

/-- C7 (amended): a second archive call without an intervening reveal
fails — with AccountAlreadyInUse from the init constraint of the already
existing history account; the program defines no InvalidPhase error — and
history keys stay free of duplicates under every program step, so no
duplicate RoundHistory entry is ever produced. -/
theorem archive_twice_spec (s : ProposalSystem.ChainState) (payer : Nat) (now : Int)
    (hcreated : s.system_created = true)
    (hround : 0 < s.round_metadata.current_round)
    (hex : (ProposalSystem.findA (s.round_metadata.current_round - 1)
      s.histories).isSome = true) :
    ProposalSystem.create_round_history s payer now =
      .error ProposalSystem.ProgErr.AccountAlreadyInUse ∧
    ∀ s0 ix s1, ProposalSystem.step s0 ix = .ok s1 →
      (s0.histories.map Prod.fst).Nodup → (s1.histories.map Prod.fst).Nodup := by
  constructor
  · have hz : ¬ s.round_metadata.current_round = 0 := by omega
    simp [ProposalSystem.create_round_history, hcreated, hz, hex]
  · exact fun s0 ix s1 h hn => ProposalSystem.step_histories_nodup s0 ix s1 h hn

/-- Closed witness for the amended C7 at the concrete archived state. -/
theorem archive_twice_spec_witness :
    archivedState.system_created = true ∧
    0 < archivedState.round_metadata.current_round ∧
    (ProposalSystem.findA (archivedState.round_metadata.current_round - 1)
      archivedState.histories).isSome = true ∧
    (ProposalSystem.create_round_history archivedState 1 6 =
      .error ProposalSystem.ProgErr.AccountAlreadyInUse ∧
    ∀ s0 ix s1, ProposalSystem.step s0 ix = .ok s1 →
      (s0.histories.map Prod.fst).Nodup → (s1.histories.map Prod.fst).Nodup) :=
  ⟨by decide, by decide, by decide,
    archive_twice_spec archivedState 1 6 (by decide) (by decide) (by decide)⟩

/-- Counterexample to C7 as stated: the second of two consecutive archive
calls fails with AccountAlreadyInUse — not with an InvalidPhase error,
which the program does not define — and the single history entry written
by the first call is not duplicated. -/
theorem archive_twice_cex :
    (ProposalSystem.create_round_history baseState 1 5 >>= fun s1 =>
      ProposalSystem.create_round_history s1 1 6) =
      .error ProposalSystem.ProgErr.AccountAlreadyInUse ∧
    (ProposalSystem.create_round_history baseState 1 5).map
      (fun s1 => s1.histories.length) = .ok 1 := by
  exact ⟨by decide, by decide⟩

/-- C8 (amended): the reveal instruction queues a new computation for
every authority call whatever is already queued and pending: the program
has no notion of an in-flight request and rejects nothing as busy. -/
theorem reveal_request_no_single_flight (s : ProposalSystem.ChainState)
    (payer off sid : Nat) (hcreated : s.system_created = true)
    (hauth : payer = s.system_acc.authority) :
    ProposalSystem.reveal_winning_proposal s payer off sid =
      .ok { s with queued := s.queued ++
        [⟨ProposalSystem.CompKind.revealWinner, off,
          [ProposalSystem.Argument.PlaintextU128 s.system_acc.nonce,
           ProposalSystem.Argument.Account ProposalSystem.system_acc_key 58 320]⟩] } := by
  simp [ProposalSystem.reveal_winning_proposal, hcreated, hauth]

/-- A concrete state with one reveal computation still pending. -/
def pendingState : ProposalSystem.ChainState :=
  { baseState with queued := [⟨ProposalSystem.CompKind.revealWinner, 21,
      [ProposalSystem.Argument.PlaintextU128 42,
       ProposalSystem.Argument.Account ProposalSystem.system_acc_key 58 320]⟩] }

/-- Closed witness for the amended C8: with a reveal request already
pending, a further reveal request is still accepted and appended. -/
theorem reveal_request_no_single_flight_witness :
    pendingState.system_created = true ∧
    1 = pendingState.system_acc.authority ∧
    ProposalSystem.reveal_winning_proposal pendingState 1 22 0 =
      .ok { pendingState with queued := pendingState.queued ++
        [⟨ProposalSystem.CompKind.revealWinner, 22,
          [ProposalSystem.Argument.PlaintextU128 pendingState.system_acc.nonce,
           ProposalSystem.Argument.Account ProposalSystem.system_acc_key 58 320]⟩] } :=
  ⟨by decide, by decide,
    reveal_request_no_single_flight pendingState 1 22 0 (by decide) (by decide)⟩

/-- Counterexample to C8 as stated: two reveal requests issued back to
back, with no callback in between, both succeed, leaving two queued
computations; the second is not rejected with any busy condition. -/
theorem reveal_second_request_accepted_cex :
    ((ProposalSystem.reveal_winning_proposal baseState 1 21 0) >>= fun s1 =>
      ProposalSystem.reveal_winning_proposal s1 1 22 0).map
      (fun s2 => s2.queued.length) = .ok 2 := by
  decide

/-- C9 (amended): whenever a program step changes the ciphertext tally or
its nonce, that step is the system initialisation, a successful init or
vote callback, or the archive instruction — in particular the archive
instruction create_round_history also writes the tally, beyond the two
callbacks the claim allows. -/
theorem tally_write_sources (s : ProposalSystem.ChainState)
    (ix : ProposalSystem.Ix) (s' : ProposalSystem.ChainState)
    (h : ProposalSystem.step s ix = .ok s')
    (hch : s'.system_acc.proposal_votes ≠ s.system_acc.proposal_votes ∨
      s'.system_acc.nonce ≠ s.system_acc.nonce) :
    (∃ p off n now, ix = ProposalSystem.Ix.initSystem p off n now) ∨
    (∃ o, ix = ProposalSystem.Ix.initVotesCb
      (ProposalSystem.ComputationOutputs.Success o)) ∨
    (∃ o, ix = ProposalSystem.Ix.voteCb
      (ProposalSystem.ComputationOutputs.Success o)) ∨
    (∃ p now, ix = ProposalSystem.Ix.archiveIx p now) := by
  cases ix with
  | initSystem p off n now => exact Or.inl ⟨p, off, n, now, rfl⟩
  | initVotesCb o =>
      obtain ⟨_, _, pl, hpl⟩ := ProposalSystem.init_proposal_votes_callback_ok s o s' h
      exact Or.inr (Or.inl ⟨pl, by rw [hpl]⟩)
  | submitProp p pl t d u now =>
      obtain ⟨_, _, h1, h2⟩ := ProposalSystem.submit_proposal_ok s p pl t d u now s' h
      rcases hch with hc | hc
      · exact absurd h1 hc
      · exact absurd h2 hc
  | castVote p off pid epid v pk vn rid now =>
      obtain ⟨_, _, _, h1, h2⟩ :=
        ProposalSystem.vote_for_proposal_ok s p off pid epid v pk vn rid now s' h
      rcases hch with hc | hc
      · exact absurd h1 hc
      · exact absurd h2 hc
  | voteCb o =>
      obtain ⟨_, _, pl, hpl⟩ := ProposalSystem.vote_for_proposal_callback_ok s o s' h
      exact Or.inr (Or.inr (Or.inl ⟨pl, by rw [hpl]⟩))
  | decryptIx off v pk vn =>
      obtain ⟨_, _, h1, h2⟩ := ProposalSystem.decrypt_vote_ok s off v pk vn s' h
      rcases hch with hc | hc
      · exact absurd h1 hc
      · exact absurd h2 hc
  | decryptCb o =>
      obtain ⟨_, _, h1, h2⟩ := ProposalSystem.decrypt_vote_callback_ok s o s' h
      rcases hch with hc | hc
      · exact absurd h1 hc
      · exact absurd h2 hc
  | verifyIx p off v pk vn rid =>
      obtain ⟨_, _, h1, h2⟩ :=
        ProposalSystem.verify_winning_vote_ok s p off v pk vn rid s' h
      rcases hch with hc | hc
      · exact absurd h1 hc
      · exact absurd h2 hc
  | verifyCb o =>
      obtain ⟨_, _, h1, h2⟩ := ProposalSystem.verify_winning_vote_callback_ok s o s' h
      rcases hch with hc | hc
      · exact absurd h1 hc
      · exact absurd h2 hc
  | revealIx p off sid =>
      obtain ⟨_, _, h1, h2⟩ := ProposalSystem.reveal_winning_proposal_ok s p off sid s' h
      rcases hch with hc | hc
      · exact absurd h1 hc
      · exact absurd h2 hc
  | revealCb o now =>
      obtain ⟨_, _, h1, h2⟩ :=
        ProposalSystem.reveal_winning_proposal_callback_ok s o now s' h
      rcases hch with hc | hc
      · exact absurd h1 hc
      · exact absurd h2 hc
  | archiveIx p now => exact Or.inr (Or.inr (Or.inr ⟨p, now, rfl⟩))

/-- The concrete result of archiving baseState. -/
def baseArchived : ProposalSystem.ChainState :=
  { baseState with
    system_acc := { baseState.system_acc with
      winning_proposal_id := none
      winning_vote_count := none
      proposal_votes := List.replicate 10 zeroCiphertext }
    round_metadata := { baseState.round_metadata with
      proposals_in_current_round := 0
      total_voters := 0 }
    histories := [(0, ⟨0, 1, 9, 1, 3⟩)] }

/-- Closed witness for the amended C9 at the concrete archive step. -/
theorem tally_write_sources_witness :
    ProposalSystem.step baseState (ProposalSystem.Ix.archiveIx 1 9) =
      .ok baseArchived ∧
    (baseArchived.system_acc.proposal_votes ≠ baseState.system_acc.proposal_votes ∨
      baseArchived.system_acc.nonce ≠ baseState.system_acc.nonce) ∧
    ((∃ p off n now, ProposalSystem.Ix.archiveIx 1 9 =
        ProposalSystem.Ix.initSystem p off n now) ∨
      (∃ o, ProposalSystem.Ix.archiveIx 1 9 = ProposalSystem.Ix.initVotesCb
        (ProposalSystem.ComputationOutputs.Success o)) ∨
      (∃ o, ProposalSystem.Ix.archiveIx 1 9 = ProposalSystem.Ix.voteCb
        (ProposalSystem.ComputationOutputs.Success o)) ∨
      (∃ p now, ProposalSystem.Ix.archiveIx 1 9 =
        ProposalSystem.Ix.archiveIx p now)) :=
  ⟨by decide, by decide,
    tally_write_sources baseState (ProposalSystem.Ix.archiveIx 1 9) baseArchived
      (by decide) (by decide)⟩

/-- Counterexample to C9 as stated: the archive instruction, which is not
a computation callback, overwrites the ten ciphertext tally slots with
zeros. -/
theorem tally_written_by_archive_cex :
    (ProposalSystem.create_round_history baseState 1 9).map
      (fun s1 => s1.system_acc.proposal_votes) =
      .ok (List.replicate 10 zeroCiphertext) ∧
    baseState.system_acc.proposal_votes ≠ List.replicate 10 zeroCiphertext := by
  exact ⟨by decide, by decide⟩

/-- C10: two cast_vote calls identical except for the plaintext
proposal_id argument, both passing the proposal-id check, produce exactly
the same result state: the same receipt, the same counters and the same
queued computation arguments — which never contain the plaintext proposal
id — so the tally update is determined solely by the encrypted ballot,
and no error distinguishes the two calls. -/
theorem cast_vote_plaintext_id_irrelevant (s : ProposalSystem.ChainState)
    (payer off pid1 pid2 : Nat) (epid vote pk : Ciphertext) (vn rid : Nat)
    (now : Int) (hcreated : s.system_created = true)
    (hfresh : (ProposalSystem.findA (payer, rid) s.receipts).isSome = false)
    (hrid : rid = s.round_metadata.current_round)
    (hp1 : pid1 < s.round_metadata.proposals_in_current_round)
    (hp2 : pid2 < s.round_metadata.proposals_in_current_round) :
    ProposalSystem.vote_for_proposal s payer off pid1 epid vote pk vn rid now =
      ProposalSystem.vote_for_proposal s payer off pid2 epid vote pk vn rid now ∧
    ProposalSystem.vote_for_proposal s payer off pid1 epid vote pk vn rid now =
      .ok { s with
        receipts := ((payer, rid), ⟨payer, epid, now, pk⟩) :: s.receipts
        round_metadata := { s.round_metadata with
          total_voters := s.round_metadata.total_voters + 1 }
        queued := s.queued ++ [⟨ProposalSystem.CompKind.vote, off,
          [ProposalSystem.Argument.ArcisPubkey pk,
           ProposalSystem.Argument.PlaintextU128 vn,
           ProposalSystem.Argument.EncryptedU8 vote,
           ProposalSystem.Argument.PlaintextU128 s.system_acc.nonce,
           ProposalSystem.Argument.Account ProposalSystem.system_acc_key 58 320]⟩] } := by
  subst hrid
  constructor
  · simp [ProposalSystem.vote_for_proposal, hcreated, hfresh, hp1, hp2]
  · simp [ProposalSystem.vote_for_proposal, hcreated, hfresh, hp1]

/-- Closed witness for C10 at concrete calls differing only in the
plaintext proposal id, 0 against 2. -/
theorem cast_vote_plaintext_id_irrelevant_witness :
    baseState.system_created = true ∧
    (ProposalSystem.findA (8, 1) baseState.receipts).isSome = false ∧
    1 = baseState.round_metadata.current_round ∧
    0 < baseState.round_metadata.proposals_in_current_round ∧
    2 < baseState.round_metadata.proposals_in_current_round ∧
    (ProposalSystem.vote_for_proposal baseState 8 60 0 sampleCiphertext
        sampleCiphertext sampleCiphertext 5 1 3 =
      ProposalSystem.vote_for_proposal baseState 8 60 2 sampleCiphertext
        sampleCiphertext sampleCiphertext 5 1 3 ∧
    ProposalSystem.vote_for_proposal baseState 8 60 0 sampleCiphertext
        sampleCiphertext sampleCiphertext 5 1 3 =
      .ok { baseState with
        receipts := ((8, 1), ⟨8, sampleCiphertext, 3, sampleCiphertext⟩) ::
          baseState.receipts
        round_metadata := { baseState.round_metadata with
          total_voters := baseState.round_metadata.total_voters + 1 }
        queued := baseState.queued ++ [⟨ProposalSystem.CompKind.vote, 60,
          [ProposalSystem.Argument.ArcisPubkey sampleCiphertext,
           ProposalSystem.Argument.PlaintextU128 5,
           ProposalSystem.Argument.EncryptedU8 sampleCiphertext,
           ProposalSystem.Argument.PlaintextU128 baseState.system_acc.nonce,
           ProposalSystem.Argument.Account ProposalSystem.system_acc_key 58 320]⟩] }) :=
  ⟨by decide, by decide, by decide, by decide, by decide,
    cast_vote_plaintext_id_irrelevant baseState 8 60 0 2 sampleCiphertext
      sampleCiphertext sampleCiphertext 5 1 3 (by decide) (by decide) (by decide)
      (by decide) (by decide)⟩
